import Mathlib

set_option linter.unusedVariables false

/-!
Verification of the dbprak repository (task3/src/utility.py and
task4/eloop_creation.py) against its natural-language specification.

The source is shallow-embedded: the pure geometry helpers become Lean
functions over exact rationals, the graph-database read queries become
filters over an explicit list of stored node records, and the task4
aggregation loop (a Python for-loop whose failures are raised exceptions)
becomes an explicit exception-propagating fold in an `Except` monad.
-/

namespace Dbprak

/-! ### task3/src/utility.py : box geometry -/

/-- A 3d point, as used throughout utility.py (source points are indexable
coordinate triples; coordinates are modelled as exact rationals). -/
structure Point where
  x : ℚ
  y : ℚ
  z : ℚ
deriving DecidableEq, Repr

instance : Inhabited Point := ⟨⟨0, 0, 0⟩⟩

/-- Embedding of `compute_box_constraints(p1, p2)` (utility.py lines 17-36):
the per-axis min/max of the two diagonal corner points, returned as the list
[min_x, max_x, min_y, max_y, min_z, max_z]. -/
def compute_box_constraints (p1 p2 : Point) : List ℚ :=
  [min p1.x p2.x, max p1.x p2.x,
   min p1.y p2.y, max p1.y p2.y,
   min p1.z p2.z, max p1.z p2.z]

/-- Embedding of `check_same_box(p1, p2, p3, p4)` (utility.py lines 39-48):
equality of the two constraint lists. -/
def check_same_box (p1 p2 p3 p4 : Point) : Bool :=
  compute_box_constraints p1 p2 = compute_box_constraints p3 p4

/-! ### task3/src/utility.py : get_nodes_in_box

The Neo4j store is modelled as the list of stored `Node` records; each
record carries the node's `time`, `id` and coordinates together with the
global ids of the `Loop` entities it is connected to by a graph edge (the
`(n:Node)--(l:Loop)` pattern of the query). -/

/-- A stored `Node` record together with its adjacent `Loop` global ids. -/
structure DBNode where
  time : Int
  id : Int
  x : ℚ
  y : ℚ
  z : ℚ
  loops : List Int
deriving DecidableEq, Repr

/-- One result row of the `get_nodes_in_box` query: the node attributes plus
`collect(distinct l.global_id)` over the matched loops. -/
structure NodeRow where
  timestamp : Int
  node_id : Int
  x : ℚ
  y : ℚ
  z : ℚ
  loop_candidates : List Int
deriving DecidableEq, Repr

/-- The inclusive per-axis bound test of the query
(`constraints[0] <= n.x <= constraints[1]` and so on, utility.py lines
84-86). -/
def inBox (constraints : List ℚ) (n : DBNode) : Prop :=
  constraints.getD 0 0 ≤ n.x ∧ n.x ≤ constraints.getD 1 0 ∧
  constraints.getD 2 0 ≤ n.y ∧ n.y ≤ constraints.getD 3 0 ∧
  constraints.getD 4 0 ≤ n.z ∧ n.z ≤ constraints.getD 5 0

instance (constraints : List ℚ) (n : DBNode) : Decidable (inBox constraints n) := by
  unfold inBox; infer_instance

/-- The result row produced for a matched node: its attributes plus the
distinct list of adjacent loop global ids. -/
def rowOf (n : DBNode) : NodeRow :=
  ⟨n.time, n.id, n.x, n.y, n.z, n.loops.dedup⟩

/-- Embedding of `get_nodes_in_box(p1, p2, timestamp, where_clause)`
(utility.py lines 68-97).  The constructed Cypher query matches
`(n:Node{time:timestamp})--(l:Loop)` under the inclusive box bounds and
groups per node, so a node is returned exactly when it is at `timestamp`,
lies in the box, and is connected to at least one Loop.  The
`where_clause` argument is accepted but never interpolated into the query
string in the source, so it is ignored here as well. -/
def get_nodes_in_box (nodes : List DBNode) (p1 p2 : Point) (timestamp : Int)
    (where_clause : Option String) : List NodeRow :=
  let constraints := compute_box_constraints p1 p2
  (nodes.filter
    (fun n => decide (n.time = timestamp ∧ inBox constraints n ∧ n.loops ≠ []))).map rowOf

/-! ### task3/src/utility.py : fit_box_to_loop

The query of `fit_box_to_loop` returns the coordinate rows of all nodes
connected to the requested loop; the model takes that row list directly.
The source then selects the coordinate columns and takes their per-column
minima and maxima.  (As written, the source spells the column selection
`res["x", "y", "z"]`, which is not a valid pandas multi-column selection
and raises `KeyError` before anything is computed; the model follows the
documented intent `res[["x", "y", "z"]].min()` / `.max()`, i.e. the
per-axis extremes of the node set, which is what the function's own
docstring, trailing assertion and the specification describe.) -/

/-- Embedding of `fit_box_to_loop` (utility.py lines 105-136) on the list of
node coordinate rows returned by its query: `none` on an empty node set
(pandas min/max over zero rows is undefined), otherwise the two extreme
corner points and the constraints list. -/
def fit_box_to_loop (nodes : List Point) : Option (Point × Point × List ℚ) :=
  match nodes with
  | [] => none
  | n :: ns =>
    let min_x := ns.foldl (fun a p => min a p.x) n.x
    let max_x := ns.foldl (fun a p => max a p.x) n.x
    let min_y := ns.foldl (fun a p => min a p.y) n.y
    let max_y := ns.foldl (fun a p => max a p.y) n.y
    let min_z := ns.foldl (fun a p => min a p.z) n.z
    let max_z := ns.foldl (fun a p => max a p.z) n.z
    some (⟨min_x, min_y, min_z⟩, ⟨max_x, max_y, max_z⟩,
      [min_x, max_x, min_y, max_y, min_z, max_z])

/-! ### task4/eloop_creation.py : the junction aggregation loop

The module-level loop (eloop_creation.py lines 29-48) processes one
timestamp at a time: it collects the loop ids at that timestamp into an
accumulator table of rows `(id, jtypes, connected_loops)`, then folds over
the junctions at that timestamp.  For each junction it splits the
junction's `global_id` on the hyphen, and for each token in order converts
it with `int(...)` (a `ValueError` on a non-numeric token), looks the id up
in the accumulator table (`final_df.loc[loop_id, ts]`, a `KeyError` when
the id was not collected), appends the junction's type to that row's
`jtypes`, and extends that row's `connected_loops` with every other decoded
id of the same junction.  A raised exception propagates out of the module
loop and aborts the run, which the model renders as an
exception-propagating fold in `Except`. -/

/-- A junction record as returned by the junction query: its `global_id`
(hyphen-joined loop ids) and its `type` label. -/
structure Junction where
  global_id : String
  jtype : String
deriving DecidableEq, Repr

/-- One accumulator row of `final_df` for the current timestamp: the loop
id, the junction-type labels collected so far, and the connected loop ids
collected so far. -/
structure ELoopRow where
  id : Int
  jtypes : List String
  connected_loops : List Int
deriving DecidableEq, Repr

/-- The two exceptions the aggregation loop can raise: `ValueError` from
`int(...)` on a non-numeric token, and `KeyError` from the `final_df.loc`
lookup of an uncollected loop id. -/
inductive AggError where
  | valueError (tok : String)
  | keyError (loop_id : Int)
deriving DecidableEq, Repr

/-- Python's `str.split("-")` on the character list of the junction
global id: the maximal hyphen-free segments, with empty segments kept
(`"".split("-") == [""]`). -/
def splitOnHyphen : List Char → List (List Char)
  | [] => [[]]
  | c :: rest =>
    if c = '-' then [] :: splitOnHyphen rest
    else
      match splitOnHyphen rest with
      | [] => [[c]]
      | t :: ts => (c :: t) :: ts

/-- The numeric value of a decimal digit character, `none` otherwise. -/
def digitVal (c : Char) : Option Nat :=
  if '0' ≤ c ∧ c ≤ '9' then some (c.toNat - '0'.toNat) else none

/-- The value of a non-empty all-digit character list, `none` otherwise. -/
def parseDigits (cs : List Char) : Option Nat :=
  if cs = [] then none
  else
    cs.foldl
      (fun acc c =>
        match acc, digitVal c with
        | some n, some d => some (10 * n + d)
        | _, _ => none)
      (some 0)

/-- Model of Python's `int(token)` on a junction-id token: an optional sign
followed by at least one decimal digit, `none` (a `ValueError`) otherwise.
(Python's `int` additionally tolerates surrounding whitespace and digit
underscores, which hyphen-split tokens of well-formed ids never contain.) -/
def pyInt : List Char → Option Int
  | '-' :: rest => (parseDigits rest).map (fun n => -(n : Int))
  | '+' :: rest => (parseDigits rest).map (fun n => (n : Int))
  | cs => (parseDigits cs).map (fun n => (n : Int))

/-- The Python for-loop with exception propagation: fold `step` over the
list, stopping at (and returning) the first raised error. -/
def foldE {α β : Type} (step : β → α → Except AggError β) :
    β → List α → Except AggError β
  | s, [] => Except.ok s
  | s, a :: l =>
    match step s a with
    | Except.error e => Except.error e
    | Except.ok s' => foldE step s' l

/-- One step of the comprehension
`[int(loop) for loop in loops if int(loop) != loop_id]`: decode the token
(`ValueError` on failure) and keep the value when it differs from
`loop_id`. -/
def decodeStep (loop_id : Int) (acc : List Int) (tok : List Char) :
    Except AggError (List Int) :=
  match pyInt tok with
  | none => Except.error (AggError.valueError (String.mk tok))
  | some v => Except.ok (if v = loop_id then acc else acc ++ [v])

/-- The comprehension `[int(loop) for loop in loops if int(loop) != loop_id]`
(eloop_creation.py line 48): decode every token of the junction, keeping the
values different from `loop_id`; the first non-numeric token raises. -/
def decodeOthers (toks : List (List Char)) (loop_id : Int) :
    Except AggError (List Int) :=
  foldE (decodeStep loop_id) [] toks

/-- The in-place row update of eloop_creation.py lines 46-48: append the
junction type to the row of `loop_id` and extend its connected loops. -/
def appendJunctionData (rows : List ELoopRow) (loop_id : Int) (jtype : String)
    (conn : List Int) : List ELoopRow :=
  rows.map (fun r =>
    if r.id = loop_id then
      { r with jtypes := r.jtypes ++ [jtype],
               connected_loops := r.connected_loops ++ conn }
    else r)

/-- Processing of one token of a junction's split global id
(eloop_creation.py lines 43-48): `int(...)` the token, look the id up in
the accumulator table (a `KeyError` when absent), then append the junction
type and the other decoded ids of the same junction to that row. -/
def processToken (jtype : String) (toks : List (List Char))
    (rows : List ELoopRow) (tok : List Char) : Except AggError (List ELoopRow) :=
  match pyInt tok with
  | none => Except.error (AggError.valueError (String.mk tok))
  | some loop_id =>
    if rows.any (fun r => r.id == loop_id) then
      (decodeOthers toks loop_id).map
        (fun conn => appendJunctionData rows loop_id jtype conn)
    else Except.error (AggError.keyError loop_id)

/-- Processing of one junction (eloop_creation.py lines 41-48): split the
global id on the hyphen and process every token in order. -/
def processJunction (rows : List ELoopRow) (j : Junction) :
    Except AggError (List ELoopRow) :=
  let toks := splitOnHyphen j.global_id.toList
  foldE (processToken j.jtype toks) rows toks

/-- The CollectLoops step (eloop_creation.py lines 31-36): one accumulator
row with empty lists per collected loop id. -/
def collectLoops (loops : List Int) : List ELoopRow :=
  loops.map (fun i => { id := i, jtypes := [], connected_loops := [] })

/-- One timestamp of the aggregation loop: collect the loop rows, then fold
the junction processing over all junctions of the timestamp, propagating
the first raised exception. -/
def aggregate (loops : List Int) (junctions : List Junction) :
    Except AggError (List ELoopRow) :=
  foldE processJunction (collectLoops loops) junctions

/-! ### Concrete store fixtures used by the end-to-end statements

The three nodes A = (0,0,0), B = (5,5,5), C = (10,10,10) of the spec's
end-to-end example, first as bare nodes with no loop edges, then each
connected to one loop. -/

/-- Node A = (0,0,0) at timestamp 7, connected to no loop. -/
def nodeA : DBNode := ⟨7, 1, 0, 0, 0, []⟩

/-- Node B = (5,5,5) at timestamp 7, connected to no loop. -/
def nodeB : DBNode := ⟨7, 2, 5, 5, 5, []⟩

/-- Node C = (10,10,10) at timestamp 7, connected to no loop. -/
def nodeC : DBNode := ⟨7, 3, 10, 10, 10, []⟩

/-- Node A = (0,0,0) at timestamp 7, connected to loop 10. -/
def nodeA2 : DBNode := ⟨7, 1, 0, 0, 0, [10]⟩

/-- Node B = (5,5,5) at timestamp 7, connected to loop 11. -/
def nodeB2 : DBNode := ⟨7, 2, 5, 5, 5, [11]⟩

/-- Node C = (10,10,10) at timestamp 7, connected to loop 12. -/
def nodeC2 : DBNode := ⟨7, 3, 10, 10, 10, [12]⟩

/-! ### Theorems for the claims -/

/-- Claim C8: for all points `p1`, `p2`, `compute_box_constraints p1 p2`
equals `compute_box_constraints p2 p1` — swapping the two diagonal corner
points does not change the resulting 6-tuple of per-axis bounds. -/
theorem compute_box_constraints_comm (p1 p2 : Point) :
    compute_box_constraints p1 p2 = compute_box_constraints p2 p1 := by
  simp [compute_box_constraints, min_comm, max_comm]

/-- Claim C7: `check_same_box p1 p2 p3 p4` is true exactly when the two
constraint lists are element-wise equal; in particular it is true when the
second diagonal is a relabeling of the first (`p2, p1`) or a reordering of
the box's corners (the mixed corners `(p2.x, p1.y, p1.z)` and
`(p1.x, p2.y, p2.z)`). -/
theorem check_same_box_spec (p1 p2 p3 p4 : Point) :
    (check_same_box p1 p2 p3 p4 = true ↔
      compute_box_constraints p1 p2 = compute_box_constraints p3 p4) ∧
    check_same_box p1 p2 p2 p1 = true ∧
    check_same_box p1 p2 ⟨p2.x, p1.y, p1.z⟩ ⟨p1.x, p2.y, p2.z⟩ = true := by
  refine ⟨by simp [check_same_box], ?_, ?_⟩ <;>
    simp [check_same_box, compute_box_constraints, min_comm, max_comm]

/-- Claim C6: the `where_clause` argument of `get_nodes_in_box` is never
wired into the constructed query, so the result with any `where_clause`
equals the result with `none`. -/
theorem get_nodes_in_box_ignores_where_clause (nodes : List DBNode)
    (p1 p2 : Point) (timestamp : Int) (where_clause : Option String) :
    get_nodes_in_box nodes p1 p2 timestamp where_clause =
      get_nodes_in_box nodes p1 p2 timestamp none := rfl

/-- Claim C1: at a timestamp whose collected loop ids are 1, 2, 3 and whose
only junction has global id "1-2" and type "T", the aggregation output maps
loop 1 to junction types ["T"] and connected loops [2], loop 2 to ["T"] and
[1], and loop 3 — collected but in no junction — to empty lists, so every
collected loop appears in the output. -/
theorem aggregate_example :
    aggregate [1, 2, 3] [⟨"1-2", "T"⟩] =
      Except.ok [⟨1, ["T"], [2]⟩, ⟨2, ["T"], [1]⟩, ⟨3, [], []⟩] := rfl

/-- A running minimum over a list never exceeds its starting value. -/
theorem foldl_min_le (g : Point → ℚ) (l : List Point) (a : ℚ) :
    l.foldl (fun acc p => min acc (g p)) a ≤ a := by
  induction l generalizing a with
  | nil => simp
  | cons b t ih =>
    simpa using (ih (min a (g b))).trans (min_le_left _ _)

/-- A running maximum over a list never drops below its starting value. -/
theorem le_foldl_max (g : Point → ℚ) (l : List Point) (a : ℚ) :
    a ≤ l.foldl (fun acc p => max acc (g p)) a := by
  induction l generalizing a with
  | nil => simp
  | cons b t ih =>
    simpa using (le_max_left a (g b)).trans (ih (max a (g b)))

/-- Claim C3: whenever `fit_box_to_loop` returns on a non-empty node set,
the returned triple satisfies
`compute_box_constraints p1 p2 = constraints`: `p1` collects the per-axis
minima and `p2` the per-axis maxima, so re-deriving the constraint list
from the two corners reproduces it. -/
theorem fit_box_to_loop_invariant (nodes : List Point) (p1 p2 : Point)
    (constraints : List ℚ)
    (h : fit_box_to_loop nodes = some (p1, p2, constraints)) :
    compute_box_constraints p1 p2 = constraints := by
  cases nodes with
  | nil => simp [fit_box_to_loop] at h
  | cons n ns =>
    simp only [fit_box_to_loop, Option.some.injEq, Prod.mk.injEq] at h
    obtain ⟨h1, h2, h3⟩ := h
    subst h1 h2 h3
    have hx : ns.foldl (fun a p => min a p.x) n.x ≤ ns.foldl (fun a p => max a p.x) n.x :=
      (foldl_min_le (fun p => p.x) ns n.x).trans (le_foldl_max (fun p => p.x) ns n.x)
    have hy : ns.foldl (fun a p => min a p.y) n.y ≤ ns.foldl (fun a p => max a p.y) n.y :=
      (foldl_min_le (fun p => p.y) ns n.y).trans (le_foldl_max (fun p => p.y) ns n.y)
    have hz : ns.foldl (fun a p => min a p.z) n.z ≤ ns.foldl (fun a p => max a p.z) n.z :=
      (foldl_min_le (fun p => p.z) ns n.z).trans (le_foldl_max (fun p => p.z) ns n.z)
    simp [compute_box_constraints, min_eq_left, max_eq_right, hx, hy, hz]

/-- Witness for claim C3 at a concrete two-node loop. -/
theorem fit_box_to_loop_invariant_witness :
    fit_box_to_loop [⟨0, 0, 0⟩, ⟨5, 1, 2⟩] =
      some (⟨0, 0, 0⟩, ⟨5, 1, 2⟩, [0, 5, 0, 1, 0, 2]) ∧
    compute_box_constraints ⟨0, 0, 0⟩ ⟨5, 1, 2⟩ = [0, 5, 0, 1, 0, 2] :=
  ⟨by decide,
    fit_box_to_loop_invariant [⟨0, 0, 0⟩, ⟨5, 1, 2⟩] ⟨0, 0, 0⟩ ⟨5, 1, 2⟩
      [0, 5, 0, 1, 0, 2] (by decide)⟩

/-- Counterexample to claim C2 as stated: node B = (5,5,5) is at the
queried timestamp and lies inside the box (1,1,1)-(9,9,9), yet the query
returns nothing, because the match pattern `(n:Node)--(l:Loop)` only
returns nodes connected to at least one Loop and B has no loop edge.  So
`get_nodes_in_box` does not return exactly the in-box nodes at the
timestamp. -/
theorem get_nodes_in_box_not_all_nodes :
    nodeB.time = 7 ∧
    inBox (compute_box_constraints ⟨1, 1, 1⟩ ⟨9, 9, 9⟩) nodeB ∧
    get_nodes_in_box [nodeA, nodeB, nodeC] ⟨1, 1, 1⟩ ⟨9, 9, 9⟩ 7 none = [] := by
  decide

/-- Claim C2 (amended): a stored node's row is returned by
`get_nodes_in_box` exactly when the node is at the queried timestamp, its
coordinates satisfy the inclusive per-axis bounds of
`compute_box_constraints p1 p2`, and the node is connected to at least one
Loop. -/
theorem get_nodes_in_box_mem_iff (nodes : List DBNode) (p1 p2 : Point)
    (timestamp : Int) (where_clause : Option String) (n : DBNode)
    (hmem : n ∈ nodes) :
    rowOf n ∈ get_nodes_in_box nodes p1 p2 timestamp where_clause ↔
      (n.time = timestamp ∧ inBox (compute_box_constraints p1 p2) n ∧
        n.loops ≠ []) := by
  unfold get_nodes_in_box
  constructor
  · intro h
    obtain ⟨m, hm, hrow⟩ := List.mem_map.mp h
    have hmf := List.mem_filter.mp hm
    obtain ⟨ht, hbox, hloops⟩ := of_decide_eq_true hmf.2
    simp only [rowOf, NodeRow.mk.injEq] at hrow
    obtain ⟨htime, -, hx, hy, hz, hdedup⟩ := hrow
    refine ⟨htime ▸ ht, ?_, ?_⟩
    · unfold inBox at hbox ⊢
      rw [← hx, ← hy, ← hz]
      exact hbox
    · intro hnil
      rw [hnil, List.dedup_nil] at hdedup
      exact hloops ((List.dedup_eq_nil m.loops).mp hdedup)
  · intro ⟨ht, hbox, hloops⟩
    exact List.mem_map.mpr
      ⟨n, List.mem_filter.mpr ⟨hmem, decide_eq_true ⟨ht, hbox, hloops⟩⟩, rfl⟩

/-- Witness for claim C2 (amended): with A, B, C each connected to a loop,
the box (1,1,1)-(9,9,9) at timestamp 7 returns the row of B, and only it. -/
theorem get_nodes_in_box_mem_iff_witness :
    rowOf nodeB2 ∈
      get_nodes_in_box [nodeA2, nodeB2, nodeC2] ⟨1, 1, 1⟩ ⟨9, 9, 9⟩ 7 none ∧
    get_nodes_in_box [nodeA2, nodeB2, nodeC2] ⟨1, 1, 1⟩ ⟨9, 9, 9⟩ 7 none =
      [rowOf nodeB2] :=
  ⟨(get_nodes_in_box_mem_iff [nodeA2, nodeB2, nodeC2] ⟨1, 1, 1⟩ ⟨9, 9, 9⟩ 7
      none nodeB2 (by decide)).mpr (by decide),
    by decide⟩

/-- Unfolding `foldE` when the first step raises: the loop aborts with that
error. -/
theorem foldE_cons_error {α β : Type} {step : β → α → Except AggError β}
    {s : β} {a : α} {l : List α} {e : AggError}
    (h : step s a = Except.error e) :
    foldE step s (a :: l) = Except.error e := by
  unfold foldE
  rw [h]

/-- Unfolding `foldE` when the first step succeeds: the loop continues on
the updated state. -/
theorem foldE_cons_ok {α β : Type} {step : β → α → Except AggError β}
    {s s1 : β} {a : α} {l : List α}
    (h : step s a = Except.ok s1) :
    foldE step s (a :: l) = foldE step s1 l := by
  show (match step s a with
    | Except.error e => Except.error e
    | Except.ok s' => foldE step s' l) = foldE step s1 l
  rw [h]

/-- A successful `foldE` run preserves any invariant that every single
successful step preserves. -/
theorem foldE_preserves {α β : Type} {P : β → Prop}
    {step : β → α → Except AggError β}
    (hstep : ∀ s a s', P s → step s a = Except.ok s' → P s') (l : List α) :
    ∀ s s', P s → foldE step s l = Except.ok s' → P s' := by
  induction l with
  | nil =>
    intro s s' hP h
    unfold foldE at h
    cases h
    exact hP
  | cons a t ih =>
    intro s s' hP h
    cases hsa : step s a with
    | error e =>
      rw [foldE_cons_error hsa] at h
      cases h
    | ok s1 =>
      rw [foldE_cons_ok hsa] at h
      exact ih s1 s' (hstep s a s1 hP hsa) h

/-- If some element of the list makes the step raise from every state
satisfying a preserved invariant, the whole `foldE` run raises: the loop
reaches that element (or aborts even earlier) and never returns normally. -/
theorem foldE_error_of_mem {α β : Type} {P : β → Prop}
    {step : β → α → Except AggError β}
    (hstep : ∀ s a s', P s → step s a = Except.ok s' → P s') (a : α)
    (hfail : ∀ s, P s → ∃ e, step s a = Except.error e) (l : List α) :
    ∀ s, a ∈ l → P s → ∃ e, foldE step s l = Except.error e := by
  induction l with
  | nil =>
    intro s hmem
    cases hmem
  | cons b t ih =>
    intro s hmem hP
    cases hsb : step s b with
    | error e => exact ⟨e, foldE_cons_error hsb⟩
    | ok s1 =>
      rcases List.mem_cons.mp hmem with rfl | hmem'
      · obtain ⟨e, he⟩ := hfail s hP
        rw [he] at hsb
        cases hsb
      · obtain ⟨e, he⟩ := ih s1 hmem' (hstep s b s1 hP hsb)
        exact ⟨e, (foldE_cons_ok hsb).trans he⟩

/-- Every id the comprehension keeps differs from the current `loop_id`
(the `if int(loop) != loop_id` filter). -/
theorem decodeOthers_ne (toks : List (List Char)) (loop_id : Int)
    (conn : List Int) (h : decodeOthers toks loop_id = Except.ok conn) :
    ∀ v ∈ conn, v ≠ loop_id := by
  refine foldE_preserves (P := fun acc => ∀ v ∈ acc, v ≠ loop_id)
    ?_ toks [] conn (by simp) h
  intro acc tok acc' hP hstep
  cases hp : pyInt tok with
  | none => simp [decodeStep, hp] at hstep
  | some v =>
    simp only [decodeStep, hp, Except.ok.injEq] at hstep
    subst hstep
    by_cases hv : v = loop_id
    · rw [if_pos hv]
      exact hP
    · rw [if_neg hv]
      intro w hw
      rcases List.mem_append.mp hw with hw' | hw'
      · exact hP w hw'
      · rw [List.mem_singleton.mp hw']
        exact hv

/-- A successful `processToken` is exactly: the token decodes, the decoded
id has an accumulator row, the junction comprehension succeeds, and the
result is the corresponding row update. -/
theorem processToken_ok (jtype : String) (toks : List (List Char))
    (rows : List ELoopRow) (tok : List Char) (rows' : List ELoopRow)
    (h : processToken jtype toks rows tok = Except.ok rows') :
    ∃ loop_id conn, pyInt tok = some loop_id ∧
      decodeOthers toks loop_id = Except.ok conn ∧
      rows' = appendJunctionData rows loop_id jtype conn := by
  cases hp : pyInt tok with
  | none => simp [processToken, hp] at h
  | some loop_id =>
    simp only [processToken, hp] at h
    by_cases hany : rows.any (fun r => r.id == loop_id)
    · rw [if_pos hany] at h
      cases hd : decodeOthers toks loop_id with
      | error e =>
        rw [hd] at h
        cases h
      | ok conn =>
        rw [hd] at h
        simp only [Except.map, Except.ok.injEq] at h
        exact ⟨loop_id, conn, rfl, hd, h.symm⟩
    · rw [if_neg hany] at h
      cases h

/-- The row update never changes the id column of the accumulator table. -/
theorem appendJunctionData_ids (rows : List ELoopRow) (loop_id : Int)
    (jtype : String) (conn : List Int) :
    (appendJunctionData rows loop_id jtype conn).map (fun r => r.id) =
      rows.map (fun r => r.id) := by
  unfold appendJunctionData
  rw [List.map_map]
  refine List.map_congr_left ?_
  intro r _
  by_cases h : r.id = loop_id <;> simp [h]

/-- The row update keeps the no-self-connection invariant: only the row of
`loop_id` is extended, and the appended ids all differ from `loop_id`. -/
theorem appendJunctionData_noSelf (rows : List ELoopRow) (loop_id : Int)
    (jtype : String) (conn : List Int)
    (hrows : ∀ r ∈ rows, r.id ∉ r.connected_loops)
    (hconn : ∀ v ∈ conn, v ≠ loop_id) :
    ∀ r ∈ appendJunctionData rows loop_id jtype conn,
      r.id ∉ r.connected_loops := by
  intro r hr
  unfold appendJunctionData at hr
  obtain ⟨r0, hr0, heq⟩ := List.mem_map.mp hr
  subst heq
  by_cases h : r0.id = loop_id
  · rw [if_pos h]
    intro hmem
    rcases List.mem_append.mp hmem with hold | hnew
    · exact hrows r0 hr0 hold
    · exact hconn _ hnew h
  · rw [if_neg h]
    exact hrows r0 hr0

/-- Claim C5: whenever the aggregation of a timestamp returns normally, no
loop's `connected_loops` list contains the loop's own id — the
comprehension filters the current id out before every extension. -/
theorem aggregate_no_self_loops (loops : List Int) (junctions : List Junction)
    (rows : List ELoopRow) (h : aggregate loops junctions = Except.ok rows) :
    ∀ r ∈ rows, r.id ∉ r.connected_loops := by
  refine foldE_preserves (P := fun s => ∀ r ∈ s, r.id ∉ r.connected_loops)
    ?_ junctions (collectLoops loops) rows ?_ h
  · intro s j s' hP hok
    refine foldE_preserves (P := fun s => ∀ r ∈ s, r.id ∉ r.connected_loops)
      ?_ (splitOnHyphen j.global_id.toList) s s' hP hok
    intro s1 tok s2 hP1 hok1
    obtain ⟨lid, conn, -, hd, rfl⟩ := processToken_ok _ _ _ _ _ hok1
    exact appendJunctionData_noSelf _ _ _ _ hP1 (decodeOthers_ne _ _ _ hd)
  · intro r hr
    obtain ⟨i, -, rfl⟩ := List.mem_map.mp hr
    simp

/-- Witness for claim C5: the concrete run on loops 1, 2 with junction
"1-2" succeeds, and no result row connects a loop to itself. -/
theorem aggregate_no_self_loops_witness :
    aggregate [1, 2] [⟨"1-2", "T"⟩] =
      Except.ok [⟨1, ["T"], [2]⟩, ⟨2, ["T"], [1]⟩] ∧
    ∀ r ∈ [ELoopRow.mk 1 ["T"] [2], ELoopRow.mk 2 ["T"] [1]],
      r.id ∉ r.connected_loops :=
  ⟨rfl, aggregate_no_self_loops [1, 2] [⟨"1-2", "T"⟩]
    [⟨1, ["T"], [2]⟩, ⟨2, ["T"], [1]⟩] rfl⟩

/-- Claim C9: a junction whose global id splits into a token that `int`
cannot decode makes that junction's processing raise from any accumulator
state, and the whole timestamp run abort with an error rather than skip
the junction and return an aggregation result. -/
theorem malformed_token_aborts (loops : List Int) (junctions : List Junction)
    (j : Junction) (tok : List Char) (hj : j ∈ junctions)
    (htok : tok ∈ splitOnHyphen j.global_id.toList)
    (hbad : pyInt tok = none) :
    (∀ rows : List ELoopRow,
      processToken j.jtype (splitOnHyphen j.global_id.toList) rows tok =
        Except.error (AggError.valueError (String.mk tok))) ∧
    (∀ rows : List ELoopRow, ∃ e, processJunction rows j = Except.error e) ∧
    ∃ e, aggregate loops junctions = Except.error e := by
  have htokfail : ∀ rows : List ELoopRow,
      processToken j.jtype (splitOnHyphen j.global_id.toList) rows tok =
        Except.error (AggError.valueError (String.mk tok)) := by
    intro rows
    simp [processToken, hbad]
  have hpj : ∀ rows : List ELoopRow,
      ∃ e, processJunction rows j = Except.error e := by
    intro rows
    exact foldE_error_of_mem (P := fun _ => True)
      (fun _ _ _ _ _ => trivial) tok (fun s _ => ⟨_, htokfail s⟩)
      (splitOnHyphen j.global_id.toList) rows htok trivial
  exact ⟨htokfail, hpj,
    foldE_error_of_mem (P := fun _ => True) (fun _ _ _ _ _ => trivial)
      j (fun s _ => hpj s) junctions (collectLoops loops) hj trivial⟩

/-- Witness for claim C9: the junction "1-x" has the undecodable token "x",
and the run on loops 1 with that junction ends in an error. -/
theorem malformed_token_aborts_witness :
    ['x'] ∈ splitOnHyphen ("1-x".toList) ∧ pyInt ['x'] = none ∧
    ∃ e, aggregate [1] [⟨"1-x", "T"⟩] = Except.error e :=
  ⟨by decide, by decide,
    (malformed_token_aborts [1] [⟨"1-x", "T"⟩] ⟨"1-x", "T"⟩ ['x']
      (List.mem_singleton.mpr rfl) (by decide) (by decide)).2.2⟩

/-- Claim C10: a junction token that decodes to a loop id not collected for
the timestamp makes the run abort with an error (the `final_df.loc` lookup
of the unknown id raises, no new accumulator row is created); hence a
normal return requires every decoded id to be a collected loop id. -/
theorem unknown_loop_id_aborts (loops : List Int) (junctions : List Junction)
    (j : Junction) (tok : List Char) (loop_id : Int) (hj : j ∈ junctions)
    (htok : tok ∈ splitOnHyphen j.global_id.toList)
    (hparse : pyInt tok = some loop_id) (hmiss : loop_id ∉ loops) :
    (∀ s : List ELoopRow, s.map (fun r => r.id) = loops →
      processToken j.jtype (splitOnHyphen j.global_id.toList) s tok =
        Except.error (AggError.keyError loop_id)) ∧
    ∃ e, aggregate loops junctions = Except.error e := by
  have hids_token : ∀ (jt : String) (toks : List (List Char))
      (s : List ELoopRow) (tok1 : List Char) (s' : List ELoopRow),
      s.map (fun r => r.id) = loops →
      processToken jt toks s tok1 = Except.ok s' →
      s'.map (fun r => r.id) = loops := by
    intro jt toks s tok1 s' hP hok
    obtain ⟨lid, conn, -, -, rfl⟩ := processToken_ok _ _ _ _ _ hok
    rw [appendJunctionData_ids]
    exact hP
  have hids : ∀ (s : List ELoopRow) (j1 : Junction) (s' : List ELoopRow),
      s.map (fun r => r.id) = loops →
      processJunction s j1 = Except.ok s' →
      s'.map (fun r => r.id) = loops := by
    intro s j1 s' hP hok
    exact foldE_preserves (P := fun t => t.map (fun r => r.id) = loops)
      (hids_token j1.jtype (splitOnHyphen j1.global_id.toList))
      (splitOnHyphen j1.global_id.toList) s s' hP hok
  have htokfail : ∀ s : List ELoopRow, s.map (fun r => r.id) = loops →
      processToken j.jtype (splitOnHyphen j.global_id.toList) s tok =
        Except.error (AggError.keyError loop_id) := by
    intro s hP
    have hany : s.any (fun r => r.id == loop_id) = false := by
      rw [List.any_eq_false]
      intro r hr hbeq
      exact hmiss (hP ▸ List.mem_map.mpr ⟨r, hr, eq_of_beq hbeq⟩)
    simp [processToken, hparse, hany]
  have hpjfail : ∀ s : List ELoopRow, s.map (fun r => r.id) = loops →
      ∃ e, processJunction s j = Except.error e := by
    intro s hP
    exact foldE_error_of_mem (P := fun t => t.map (fun r => r.id) = loops)
      (hids_token j.jtype (splitOnHyphen j.global_id.toList)) tok
      (fun s1 hP1 => ⟨_, htokfail s1 hP1⟩)
      (splitOnHyphen j.global_id.toList) s htok hP
  have hinit : (collectLoops loops).map (fun r => r.id) = loops := by
    unfold collectLoops
    rw [List.map_map]
    exact List.map_id loops
  exact ⟨htokfail,
    foldE_error_of_mem (P := fun t => t.map (fun r => r.id) = loops)
      hids j hpjfail junctions (collectLoops loops) hj hinit⟩

/-- Witness for claim C10: junction "1-3" names loop 3, which is not among
the collected loops 1, 2, and the run ends in an error. -/
theorem unknown_loop_id_aborts_witness :
    ['3'] ∈ splitOnHyphen ("1-3".toList) ∧ pyInt ['3'] = some 3 ∧
    (3 : Int) ∉ [1, 2] ∧
    ∃ e, aggregate [1, 2] [⟨"1-3", "T"⟩] = Except.error e :=
  ⟨by decide, by decide, by decide,
    (unknown_loop_id_aborts [1, 2] [⟨"1-3", "T"⟩] ⟨"1-3", "T"⟩ ['3'] 3
      (List.mem_singleton.mpr rfl) (by decide) (by decide) (by decide)).2⟩

end Dbprak
